import Mathlib

/-!
Verification of the Context7 documentation-enrichment subsystem of the
ai-sdlc workflow tool. The definitions below are shallow embeddings of
`src/ai_sdlc/services/context7_client.py` and
`src/ai_sdlc/services/context7_service.py`. Machine-level details that the
claims do not touch (actual network and file I/O, the asyncio event loop,
logging) are represented by explicit oracles passed in as function
arguments; times are modelled as integer seconds, Python floats as exact
rationals (every constant involved is exactly representable).
-/

namespace AiSdlc

/-! ### Retry policy (`context7_client.py`, `_execute_tool_with_retry`) -/

/-- Outcome of one `_execute_tool` attempt, classified exactly as the
`except` clauses of `_execute_tool_with_retry` classify exceptions:
`retryableError` stands for `httpx.ConnectError`, `httpx.TimeoutException`
or `Context7TimeoutError`; `nonRetryableError` stands for
`httpx.HTTPStatusError` or `Context7AuthError`. -/
inductive AttemptOutcome (α : Type) where
  | success (value : α)
  | retryableError
  | nonRetryableError
deriving DecidableEq

/-- `MAX_RETRIES = 3` from `context7_client.py`. -/
def MAX_RETRIES : Nat := 3

/-- `RETRY_BACKOFF_FACTOR = 2.0` from `context7_client.py` (exact as a rational). -/
def RETRY_BACKOFF_FACTOR : ℚ := 2

/-- Observable behaviour of one `_execute_tool_with_retry` call: the value
returned, how many times `_execute_tool` was invoked, and the durations of
the `asyncio.sleep` calls in order. -/
structure RetryTrace (α : Type) where
  result : Option α
  invocations : Nat
  sleeps : List ℚ
deriving DecidableEq

/-- One layer of the `for attempt in range(MAX_RETRIES)` loop of
`_execute_tool_with_retry`: `attempt` is the current loop index,
`remaining` the number of iterations the `range` still has (the caller
starts it at `MAX_RETRIES`, keeping `attempt + remaining = MAX_RETRIES`).
On a retryable exception with `attempt < MAX_RETRIES - 1` the code sleeps
`RETRY_BACKOFF_FACTOR ** attempt` and iterates; otherwise the loop ends and
the function returns `None` (for the last retryable failure as well as for
a non-retryable one, which `break`s). -/
def retryGo {α : Type} (execute : Nat → AttemptOutcome α) :
    Nat → Nat → RetryTrace α
  | _, 0 => ⟨none, 0, []⟩
  | attempt, remaining + 1 =>
    match execute attempt with
    | .success v => ⟨some v, 1, []⟩
    | .retryableError =>
      if attempt < MAX_RETRIES - 1 then
        let rest := retryGo execute (attempt + 1) remaining
        ⟨rest.result, rest.invocations + 1,
          RETRY_BACKOFF_FACTOR ^ attempt :: rest.sleeps⟩
      else
        ⟨none, 1, []⟩
    | .nonRetryableError => ⟨none, 1, []⟩

/-- `_execute_tool_with_retry`, as a function of the outcome of each
attempt of `_execute_tool`. -/
def executeToolWithRetry {α : Type} (execute : Nat → AttemptOutcome α) :
    RetryTrace α :=
  retryGo execute 0 MAX_RETRIES

/-! ### Cache entries (`context7_service.py`, `_is_cache_valid`) -/

/-- A cache index entry, i.e. one value of the JSON `index.json` mapping.
`timestamp = none` models a JSON object without a `"timestamp"` key;
timestamps are integer seconds (the ISO-8601 text of the source parsed by
`datetime.fromisoformat`). `libraryId = none` models a missing
`"library_id"` key. -/
structure CacheEntry where
  timestamp : Option Int
  libraryId : Option String
deriving DecidableEq

/-- Seconds in `timedelta(days=7)`. -/
def sevenDays : Int := 7 * 86400

/-- `_is_cache_valid`: false when the `"timestamp"` key is absent, else
`datetime.now() - cached_time < timedelta(days=7)` with `now` the current
time in seconds. -/
def isCacheValid (now : Int) (entry : CacheEntry) : Bool :=
  match entry.timestamp with
  | none => false
  | some t => now - t < sevenDays

/-! ### API-key validation (`context7_client.py`, `__init__` and
`_is_valid_api_key`) -/

/-- Character test of `_is_valid_api_key`: `c.isalnum() or c in "-_."`.
Alphanumeric is modelled at ASCII level (`Char.isAlphanum`); the repository
only ever uses ASCII keys. -/
def isValidApiKeyChar (c : Char) : Bool :=
  c.isAlphanum || c = '-' || c = '_' || c = '.'

/-- `_is_valid_api_key`: reject empty or shorter-than-6 keys, else require
every character to pass `isValidApiKeyChar`. -/
def isValidApiKey (key : String) : Bool :=
  if key = "" || key.length < 6 then false
  else key.data.all isValidApiKeyChar

/-- Python's `a or b` on `str | None` values (`api_key or
os.getenv("CONTEXT7_API_KEY")`): the left operand wins unless it is `None`
or the empty string. -/
def pyOrStr (a b : Option String) : Option String :=
  match a with
  | some s => if s = "" then b else some s
  | none => b

/-- The `api_key` attribute after `Context7Client.__init__` ran, as a
function of the constructor argument and the `CONTEXT7_API_KEY` environment
variable: the key is the Python `or` of the two, then discarded (set to
`None`) when it is truthy but fails `_is_valid_api_key`. -/
def initApiKey (apiKeyArg envKey : Option String) : Option String :=
  match pyOrStr apiKeyArg envKey with
  | none => none
  | some s => if s ≠ "" && !isValidApiKey s then none else some s

/-- Headers of the SSE `GET` request built in `sse_reader` inside
`_execute_tool`: empty, plus an `Authorization` bearer header when
`self.api_key` is truthy. -/
def sseHeaders (apiKey : Option String) : List (String × String) :=
  match apiKey with
  | some s => if s = "" then [] else [("Authorization", "Bearer " ++ s)]
  | none => []

/-- Headers of the `POST` request of `_execute_tool`: content type and
session id always, plus an `Authorization` bearer header when
`self.api_key` is truthy. -/
def postHeaders (apiKey : Option String) (sessionId : String) :
    List (String × String) :=
  [("Content-Type", "application/json"), ("MCP-Session-Id", sessionId)] ++
    match apiKey with
    | some s => if s = "" then [] else [("Authorization", "Bearer " ++ s)]
    | none => []

/-! ### Library candidate scoring (`context7_client.py`,
`resolve_library_id`) -/

/-- One parsed library record, as built by `_parse_library_results`: a
dict that surely has a `"libraryId"` key (records without one are
discarded) and optionally `"name"`, `"description"`, `"codeSnippetCount"`
(a Python int) and `"trustScore"` (a Python float, exact here as a
rational). -/
structure LibResult where
  name : Option String
  libraryId : String
  description : Option String
  codeSnippetCount : Option Int
  trustScore : Option ℚ
deriving DecidableEq

/-- Python's `needle in hay` on strings: substring containment. -/
def pyContainsStr (needle hay : String) : Bool :=
  decide (needle.data <:+: hay.data)

/-- Python's `str.lower` on one character, at ASCII level: map `A`–`Z`
(codes 65–90) to the letter 32 codepoints up. -/
def pyLowerChar (c : Char) : Char :=
  if 65 ≤ c.toNat ∧ c.toNat ≤ 90 then Char.ofNat (c.toNat + 32) else c

/-- Python's `str.lower`, at ASCII level. -/
def pyLower (s : String) : String := String.mk (s.data.map pyLowerChar)

/-- The score computed for one candidate inside `resolve_library_id`:
100 for an exact case-insensitive name match, else 50 for a substring
match, plus `trustScore * 10` (default 0), plus
`min(codeSnippetCount / 100, 10.0)` (default count 0). -/
def scoreLib (query : String) (lib : LibResult) : ℚ :=
  (if pyLower (lib.name.getD "") = pyLower query then 100
   else if pyContainsStr (pyLower query) (pyLower (lib.name.getD "")) then 50
   else 0)
  + lib.trustScore.getD 0 * 10
  + min ((lib.codeSnippetCount.getD 0 : ℚ) / 100) 10

/-- The `for lib in libraries` selection loop of `resolve_library_id`:
carry the current `best_match` and `best_score`, updating them only on a
strictly greater score (so ties keep the earlier candidate). -/
def selectBestAux (query : String) :
    List LibResult → Option LibResult → ℚ → Option LibResult
  | [], best, _ => best
  | lib :: libs, best, bestScore =>
    if bestScore < scoreLib query lib then
      selectBestAux query libs (some lib) (scoreLib query lib)
    else
      selectBestAux query libs best bestScore

/-- The selection performed by `resolve_library_id` on one parsed
candidate list: the loop starts from `best_match = None`,
`best_score = -1`. -/
def selectBestCandidate (query : String) (libs : List LibResult) :
    Option LibResult :=
  selectBestAux query libs none (-1)

/-- `resolve_library_id`'s return value for one parsed candidate list:
the `libraryId` of the best match, or `None` when there is none. -/
def resolveSelection (query : String) (libs : List LibResult) :
    Option String :=
  (selectBestCandidate query libs).map LibResult.libraryId

/-- Tail of the selection loop once a best candidate is held: repeatedly
replace it by any strictly better later candidate. -/
def runBest (query : String) : LibResult → List LibResult → LibResult
  | b, [] => b
  | b, lib :: libs =>
    if scoreLib query b < scoreLib query lib then runBest query lib libs
    else runBest query b libs

/-! ### Cache index loading (`context7_service.py`, `_load_cache_index`) -/

/-- The cache index: the JSON object of `index.json` as an association
list from cache key to entry. -/
abbrev CacheIndex : Type := List (String × CacheEntry)

/-- `_load_cache_index`, as a function of whether `index.json` exists,
whether the file lock was acquired within the timeout (`false` models
`_acquire_lock` raising `TimeoutError`), and the result of `json.loads` on
the file's text (`none` models `json.JSONDecodeError`). Every failure path
returns the empty index `{}` instead of raising. -/
def loadCacheIndex (fileExists lockAcquired : Bool)
    (parsed : Option CacheIndex) : CacheIndex :=
  if fileExists then
    if lockAcquired then
      match parsed with
      | some data => data
      | none => []
    else []
  else []

/-- The `{name:"React", trust:9.5, snippets:150}` candidate of the
scoring-determinism scenario. -/
def reactCandidate : LibResult :=
  ⟨some "React", "/facebook/react", none, some 150, some (19 / 2)⟩

/-- The `{name:"react-router", trust:8.0, snippets:50}` candidate of the
scoring-determinism scenario. -/
def routerCandidate : LibResult :=
  ⟨some "react-router", "/remix-run/react-router", none, some 50, some 8⟩

/-! ### Python string primitives used by the embedded code. Each models
the exact CPython semantics of the operation (at ASCII level) and was
cross-checked against CPython on the edge cases that matter below. -/

/-- Python's `str.strip()` with no argument: drop leading and trailing
whitespace. -/
def pyStrip (s : String) : String :=
  String.mk (((s.data.dropWhile Char.isWhitespace).reverse.dropWhile
    Char.isWhitespace).reverse)

/-- Python's `s.startswith(pat)`. -/
def pyStartsWith (s pat : String) : Bool := decide (pat.data <+: s.data)

/-- Left-to-right non-overlapping replacement, the recursion behind
Python's `str.replace`; `fuel` only forces termination and is always
called with more fuel than the string has characters. -/
def pyReplaceGo (pat rep : List Char) : Nat → List Char → List Char
  | 0, s => s
  | fuel + 1, s =>
    match s with
    | [] => []
    | c :: cs =>
      if pat <+: (c :: cs) then
        rep ++ pyReplaceGo pat rep fuel ((c :: cs).drop pat.length)
      else c :: pyReplaceGo pat rep fuel cs

/-- Python's `s.replace(pat, rep)`: every occurrence, left to right,
non-overlapping. (The source never calls it with an empty pattern, for
which this model is the identity.) -/
def pyReplace (s pat rep : String) : String :=
  if pat.data = [] then s
  else String.mk (pyReplaceGo pat.data rep.data (s.data.length + 1) s.data)

/-- Recursion behind `str.split` with separator `"\n"`. -/
def splitLinesGo : List Char → List Char → List (List Char)
  | [], acc => [acc.reverse]
  | '\n' :: cs, acc => acc.reverse :: splitLinesGo cs []
  | c :: cs, acc => splitLinesGo cs (c :: acc)

/-- Python's `s.split("\n")`: keeps empty pieces, `""` gives `[""]`. -/
def pySplitLines (s : String) : List String :=
  (splitLinesGo s.data []).map String.mk

/-- Python's `sep.join(parts)`. -/
def pyJoin (sep : String) : List String → String
  | [] => ""
  | [x] => x
  | x :: xs => x ++ sep ++ pyJoin sep xs

/-! ### Documentation formatting (`context7_client.py`,
`get_library_docs` lines 524-554, and `CODE_BLOCK_PATTERN`) -/

/-- Python's regex `\w` at ASCII level. -/
def isWordChar (c : Char) : Bool := c.isAlphanum || c = '_'

/-- The lazy group `(.*?)` followed by the closing triple backtick of
`CODE_BLOCK_PATTERN`: the shortest prefix whose continuation opens with
three backticks, together with what follows them. -/
def findClose : List Char → Option (List Char × List Char)
  | [] => none
  | '`' :: '`' :: '`' :: rest => some ([], rest)
  | c :: rest => (findClose rest).map (fun p => (c :: p.1, p.2))

/-- An attempted match of `CODE_BLOCK_PATTERN` = ``` `(\w*)\n(.*?)``` ```
(DOTALL) at the start of `cs`: three backticks, a greedy run of word
characters (the language tag), a newline, then the lazily shortest code
body up to the next three backticks. Returns the two capture groups and
the remaining input. -/
def matchCodeBlockAt (cs : List Char) :
    Option (List Char × List Char × List Char) :=
  match cs with
  | '`' :: '`' :: '`' :: rest =>
    match rest.dropWhile isWordChar with
    | '\n' :: body =>
      match findClose body with
      | some (code, after) => some (rest.takeWhile isWordChar, code, after)
      | none => none
    | _ => none
  | _ => none

/-- The scan behind `CODE_BLOCK_PATTERN.split`: at each position try the
pattern; on a match emit the text so far and the two groups and restart
after the match, else advance one character. `fuel` only forces
termination (each step consumes at least one character) and is always
called with more fuel than the input has characters. -/
def splitCodeGo : Nat → List Char → List Char → List (List Char)
  | 0, rem, acc => [acc.reverse ++ rem]
  | fuel + 1, cs, acc =>
    match cs with
    | [] => [acc.reverse]
    | c :: cs' =>
      match matchCodeBlockAt (c :: cs') with
      | some (lang, code, rest) =>
        acc.reverse :: lang :: code :: splitCodeGo fuel rest []
      | none => splitCodeGo fuel cs' (c :: acc)

/-- `CODE_BLOCK_PATTERN.split(docs)`: the flat list
`[text, lang, code, text, lang, code, ..., text]` that Python's
`re.split` with two capture groups produces (cross-checked against
CPython, including overlapping-backtick and unclosed-fence inputs). -/
def codeBlockSplit (docs : String) : List String :=
  (splitCodeGo (docs.data.length + 1) docs.data []).map String.mk

/-- The `for line in lines` body of the formatter: a `TITLE:` line
becomes `**<line with the marker removed, stripped>**`, a `DESCRIPTION:`
line keeps only the stripped remainder, any other line is kept unchanged
when its stripped form is non-empty and dropped otherwise. -/
def processProseLines : List String → List String
  | [] => []
  | line :: rest =>
    (if pyStartsWith line "TITLE:" then
      ["**" ++ pyStrip (pyReplace line "TITLE:" "") ++ "**"]
    else if pyStartsWith line "DESCRIPTION:" then
      [pyStrip (pyReplace line "DESCRIPTION:" "")]
    else if pyStrip line ≠ "" then [line]
    else []) ++ processProseLines rest

/-- The text-part step of the formatter loop: `text = parts[i].strip()`;
when non-empty, process its lines. -/
def processTextPart (text : String) : List String :=
  if pyStrip text = "" then []
  else processProseLines (pySplitLines (pyStrip text))

/-- The `for i in range(0, len(parts), 3)` loop of `get_library_docs`:
each triple contributes its processed text part and, when both capture
groups are present, the re-rendered fenced code block
`"\n```{language}\n{code}```\n"`. -/
def formatParts : List String → List String
  | [] => []
  | [text] => processTextPart text
  | [text, _lang] => processTextPart text
  | text :: lang :: code :: rest =>
    processTextPart text ++
      ("\n```" ++ lang ++ "\n" ++ code ++ "```\n") :: formatParts rest

/-- The documentation formatter of `get_library_docs`: split on the code
block regex, process parts, join with newlines. -/
def formatDocs (docs : String) : String :=
  pyJoin "\n" (formatParts (codeBlockSplit docs))

/-- The `(language, code)` capture-group pairs the formatter loop reads
from a split result (indices `i+1`, `i+2` with `i + 2 < len(parts)`). -/
def partsTriples : List String → List (String × String)
  | [] => []
  | [_] => []
  | [_, _] => []
  | _ :: lang :: code :: rest => (lang, code) :: partsTriples rest

/-- The text parts the formatter loop reads from a split result
(indices `i` with `i < len(parts)`). -/
def partsProse : List String → List String
  | [] => []
  | [text] => [text]
  | [text, _] => [text]
  | text :: _ :: _ :: rest => text :: partsProse rest

/-! ### Enrichment orchestration (`context7_service.py`, `enrich_prompt`
lines 178-281, plus `_get_topic_for_step` and
`format_library_docs_section`). The library determination of lines
166-179 (text extraction or a forced list) is passed in as the
`libraries` argument; the Context7 client calls and the filesystem and
lock effects are oracles in `EnrichEnv` (both client methods catch their
own errors, returning `None` resp. `""`, matching the `Option`/empty
signals here). -/

/-- Python dict lookup on an insertion-ordered association list. -/
def lookupKey {α : Type} : List (String × α) → String → Option α
  | [], _ => none
  | (k', v) :: rest, k => if k' = k then some v else lookupKey rest k

/-- Python dict assignment `d[k] = v`: replace in place, else append. -/
def dictSet {α : Type} : List (String × α) → String → α → List (String × α)
  | [], k, v => [(k, v)]
  | (k', v') :: rest, k, v =>
    if k' = k then (k, v) :: rest else (k', v') :: dictSet rest k v

/-- Oracles for the effects of one `enrich_prompt` call:
`resolve` and `getDocs` are the client's `resolve_library_id` and
`get_library_docs`; `fileExists`/`fileRead` are the cache body files
keyed by cache key; `lockOk n` is the outcome of the n-th
`_acquire_lock` call (`false` models the `TimeoutError`); `now` is the
current time in seconds. -/
structure EnrichEnv where
  resolve : String → Option String
  getDocs : String → String → String
  fileExists : String → Bool
  fileRead : String → String
  lockOk : Nat → Bool
  now : Int

/-- Observable calls made while enriching: client calls (the network
fetches) and cache body writes. -/
inductive Event where
  | resolveCall (library : String)
  | docsCall (library libraryId topic : String)
  | bodyWrite (cacheKey docs : String)
deriving DecidableEq

/-- State threaded through the `for library in libraries` loop:
the `library_docs` dict, the in-memory `self.cache_index`, the number of
lock acquisitions made so far, and the calls made. -/
structure LoopState where
  libraryDocs : List (String × String)
  cacheIndex : CacheIndex
  lockCtr : Nat
  events : List Event
deriving DecidableEq

/-- `_get_topic_for_step`: the `step_topics` dict with its default. -/
def getTopicForStep (step : String) : String :=
  if step = "3-system-template" then
    "project structure, setup, configuration, getting started"
  else if step = "4-systems-patterns" then
    "design patterns, architecture, best practices, advanced features"
  else if step = "5-tasks" then
    "api reference, implementation, components, modules"
  else if step = "6-tasks-plus" then
    "advanced features, optimization, performance, edge cases"
  else if step = "7-tests" then
    "testing, test setup, mocking, test utilities"
  else "api reference, getting started, best practices"

/-- Python's `str.upper` on one character, at ASCII level. -/
def pyUpperChar (c : Char) : Char :=
  if 97 ≤ c.toNat ∧ c.toNat ≤ 122 then Char.ofNat (c.toNat - 32) else c

/-- Recursion behind Python's `str.title`: a letter is uppercased when
the previous character is not a letter and lowercased otherwise. -/
def pyTitleGo : Bool → List Char → List Char
  | _, [] => []
  | prevAlpha, c :: cs =>
    (if c.isAlpha then (if prevAlpha then pyLowerChar c else pyUpperChar c)
     else c) :: pyTitleGo c.isAlpha cs

/-- Python's `str.title`, at ASCII level. -/
def pyTitle (s : String) : String := String.mk (pyTitleGo false s.data)

/-- `format_library_docs_section`: empty for an empty dict, else a
header, a fetched-from-Context7 note, and per library a
`### <Library> Documentation` subheading, the docs, and a blank line,
all joined with newlines. -/
def formatLibraryDocsSection (libraryDocs : List (String × String)) :
    String :=
  if libraryDocs = [] then ""
  else
    pyJoin "\n"
      (["## Context7 Library Documentation\n",
        "*The following documentation has been fetched from Context7 to provide current, accurate information about the libraries mentioned in this project.*\n"]
        ++ libraryDocs.flatMap
          (fun p => ["### " ++ pyTitle p.1 ++ " Documentation\n", p.2, ""]))

/-- The combined condition
`cache_key in self.cache_index and self._is_cache_valid(...)`. -/
def cacheHit (env : EnrichEnv) (index : CacheIndex) (cacheKey : String) :
    Bool :=
  match lookupKey index cacheKey with
  | some entry => isCacheValid env.now entry
  | none => false

/-- The cache-hit branch of the loop body (lines 193-206): when the body
file exists, read it under the lock into `library_docs`, skipping the
library (`continue`) when the lock times out; when the body file does
not exist nothing at all happens for this library. -/
def readCached (env : EnrichEnv) (library cacheKey : String)
    (st : LoopState) : LoopState :=
  if env.fileExists cacheKey then
    if env.lockOk st.lockCtr then
      { st with
        libraryDocs := dictSet st.libraryDocs library (env.fileRead cacheKey),
        lockCtr := st.lockCtr + 1 }
    else { st with lockCtr := st.lockCtr + 1 }
  else st

/-- The fetch branch of the loop body (lines 207-253): resolve the
library id; on success fetch docs with the step topic; non-empty docs
are stored in `library_docs` and cached under the lock (the nested
`_save_cache_index` acquires once more; persistence effects beyond the
in-memory index are the `bodyWrite` event); empty docs and failed
resolution store the HTML-comment placeholders instead. -/
def fetchLibrary (env : EnrichEnv) (step library cacheKey : String)
    (st : LoopState) : LoopState :=
  let st1 := { st with events := st.events ++ [Event.resolveCall library] }
  match env.resolve library with
  | some libraryId =>
    let topic := getTopicForStep step
    let docs := env.getDocs libraryId topic
    let st2 :=
      { st1 with
        events := st1.events ++ [Event.docsCall library libraryId topic] }
    if docs ≠ "" then
      let st3 :=
        { st2 with libraryDocs := dictSet st2.libraryDocs library docs }
      if env.lockOk st3.lockCtr then
        { st3 with
          events := st3.events ++ [Event.bodyWrite cacheKey docs],
          cacheIndex :=
            dictSet st3.cacheIndex cacheKey ⟨some env.now, some libraryId⟩,
          lockCtr := st3.lockCtr + 2 }
      else { st3 with lockCtr := st3.lockCtr + 1 }
    else
      { st2 with
        libraryDocs := dictSet st2.libraryDocs library
          ("<!-- Documentation not available for " ++ library ++ " -->") }
  | none =>
    { st1 with
      libraryDocs := dictSet st1.libraryDocs library
        ("<!-- Could not resolve library: " ++ library ++ " -->") }

/-- One iteration of the `for library in libraries` loop. -/
def enrichStep (env : EnrichEnv) (step library : String) (st : LoopState) :
    LoopState :=
  if cacheHit env st.cacheIndex (library ++ "_" ++ step) then
    readCached env library (library ++ "_" ++ step) st
  else fetchLibrary env step library (library ++ "_" ++ step) st

/-- The whole `for library in libraries` loop. -/
def enrichLoop (env : EnrichEnv) (step : String) :
    List String → LoopState → LoopState
  | [], st => st
  | lib :: libs, st => enrichLoop env step libs (enrichStep env step lib st)

/-- First index `i` with `lines[i].strip().startswith("##") and i > 2`,
else 0 — the `insert_index` search of `enrich_prompt`. -/
def headingIdxGo : Nat → List String → Nat
  | _, [] => 0
  | i, line :: rest =>
    if pyStartsWith (pyStrip line) "##" && decide (i > 2) then i
    else headingIdxGo (i + 1) rest

/-- Python's `list.insert(i, x)` for `i ≤ len`. -/
def pyInsert (i : Nat) (x : String) (l : List String) : List String :=
  l.take i ++ x :: l.drop i

/-- The insertion logic of `enrich_prompt` (lines 259-279): replace an
explicit `<context7_docs>` placeholder (and delete the closing marker),
else insert before the first `##`-prefixed line past the third line,
else append at the end. -/
def insertSection (prompt sectionText : String) : String :=
  if pyContainsStr "<context7_docs>" prompt then
    pyReplace (pyReplace prompt "<context7_docs>" sectionText)
      "</context7_docs>" ""
  else
    if headingIdxGo 0 (pySplitLines prompt) > 0 then
      pyJoin "\n"
        (pyInsert (headingIdxGo 0 (pySplitLines prompt)) sectionText
          (pySplitLines prompt))
    else prompt ++ "\n\n" ++ sectionText

/-- `enrich_prompt` from the point where the library list is determined:
return the prompt unchanged for an empty list, else run the per-library
loop starting from the loaded `cache_index` and splice the formatted
section into the prompt. Returns the enriched prompt and the final loop
state (whose `events` are the calls made). -/
def enrichPrompt (env : EnrichEnv) (step : String) (libraries : List String)
    (prompt : String) (index : CacheIndex) : String × LoopState :=
  if libraries = [] then (prompt, ⟨[], index, 0, []⟩)
  else
    let st := enrichLoop env step libraries ⟨[], index, 0, []⟩
    (insertSection prompt (formatLibraryDocsSection st.libraryDocs), st)

/-- The placeholder stored for a library whose resolution failed. -/
def unresolvedNote (library : String) : String :=
  "<!-- Could not resolve library: " ++ library ++ " -->"

/-- Environment in which every resolution fails and no cache body file
exists. -/
def envUnresolved : EnrichEnv :=
  ⟨fun _ => none, fun _ _ => "", fun _ => false, fun _ => "",
   fun _ => true, 0⟩

/-- Environment with a valid index entry scenario: resolution and docs
would succeed, but no body file exists on disk and locks are granted. -/
def envMissingBody : EnrichEnv :=
  ⟨fun _ => some "/facebook/react", fun _ _ => "DOCS", fun _ => false,
   fun _ => "", fun _ => true, 0⟩

/-- Environment where the body file exists but every lock acquisition
times out. -/
def envLockStarved : EnrichEnv :=
  ⟨fun _ => some "/facebook/react", fun _ _ => "DOCS", fun _ => true,
   fun _ => "CACHED", fun _ => false, 0⟩

/-- Environment in which one library resolves and fetches successfully
(no cache files on disk, locks granted). -/
def envFetchOk : EnrichEnv :=
  ⟨fun _ => some "/pytest-dev/pytest", fun _ _ => "PYTEST DOCS",
   fun _ => false, fun _ => "", fun _ => true, 0⟩

end AiSdlc

namespace AiSdlc

/-! ### Theorems for claims C1, C2, C9, C10 -/

/-- Claim C1: when every `_execute_tool` attempt fails with a retryable
error (connection failure or timeout), `_execute_tool_with_retry` invokes
the attempt exactly 3 times, sleeps 1 second after the first failure and 2
seconds after the second (exactly two sleeps), and returns `None` instead
of raising. -/
theorem retry_exhaustion_three_attempts_two_sleeps {α : Type}
    (execute : Nat → AttemptOutcome α)
    (h : ∀ i, execute i = AttemptOutcome.retryableError) :
    executeToolWithRetry execute =
      ⟨none, 3, [(1 : ℚ), (2 : ℚ)]⟩ := by
  have h0 := h 0
  have h1 := h 1
  have h2 := h 2
  simp only [executeToolWithRetry, MAX_RETRIES, retryGo, h0, h1, h2]
  norm_num [RETRY_BACKOFF_FACTOR]

/-- Witness for C1: the always-timing-out transport, concretely. -/
theorem retry_exhaustion_three_attempts_two_sleeps_witness :
    executeToolWithRetry (fun _ => (AttemptOutcome.retryableError : AttemptOutcome Nat)) =
      ⟨none, 3, [(1 : ℚ), (2 : ℚ)]⟩ :=
  retry_exhaustion_three_attempts_two_sleeps _ (fun _ => rfl)

/-- Claim C2: `_is_cache_valid` returns true iff the entry has a timestamp
and `now - timestamp < 7 days`, strictly; concretely, an entry aged 6 days
23 hours is valid, and entries aged exactly 7 days, 7 days 1 hour, or with
no timestamp at all are invalid. -/
theorem cache_validity_window (now : Int) (entry : CacheEntry) :
    (isCacheValid now entry = true ↔
      ∃ t, entry.timestamp = some t ∧ now - t < 7 * 86400) ∧
    isCacheValid now ⟨some (now - (6 * 86400 + 23 * 3600)), none⟩ = true ∧
    isCacheValid now ⟨some (now - 7 * 86400), none⟩ = false ∧
    isCacheValid now ⟨some (now - (7 * 86400 + 3600)), none⟩ = false ∧
    isCacheValid now ⟨none, some "/facebook/react"⟩ = false := by
  refine ⟨?_, ?_, ?_, ?_, rfl⟩
  · cases h : entry.timestamp with
    | none => simp [isCacheValid, h]
    | some t => simp [isCacheValid, h, sevenDays]
  · simp [isCacheValid, sevenDays]
  · simp [isCacheValid, sevenDays]
  · simp [isCacheValid, sevenDays]

/-- Claim C9: a key supplied to the constructor (directly or via the
environment) that is shorter than 6 characters or contains a character
outside alphanumerics, `-`, `_` and `.` is discarded, so neither the SSE
request nor the POST request carries an `Authorization` header; a key of
length at least 6 over that alphabet is kept and used as a bearer token on
both requests. -/
theorem api_key_validation (apiKeyArg envKey : Option String) (s : String)
    (sessionId : String) (hk : pyOrStr apiKeyArg envKey = some s) :
    ((s.length < 6 ∨ ¬ s.data.all isValidApiKeyChar) →
      sseHeaders (initApiKey apiKeyArg envKey) = [] ∧
      postHeaders (initApiKey apiKeyArg envKey) sessionId =
        [("Content-Type", "application/json"),
         ("MCP-Session-Id", sessionId)]) ∧
    ((6 ≤ s.length ∧ s.data.all isValidApiKeyChar) →
      initApiKey apiKeyArg envKey = some s ∧
      sseHeaders (initApiKey apiKeyArg envKey) =
        [("Authorization", "Bearer " ++ s)] ∧
      ("Authorization", "Bearer " ++ s) ∈
        postHeaders (initApiKey apiKeyArg envKey) sessionId) := by
  constructor
  · intro hbad
    have hinvalid : isValidApiKey s = false := by
      unfold isValidApiKey
      rcases hbad with hlen | hchars
      · have : (s = "" || s.length < 6) = true := by
          simp [hlen]
        simp [this]
      · by_cases hemp : s = "" || s.length < 6
        · simp [hemp]
        · simp [hemp]
          simpa using hchars
    by_cases hemp : s = ""
    · subst hemp
      unfold initApiKey
      rw [hk]
      simp [sseHeaders, postHeaders]
    · unfold initApiKey
      rw [hk]
      simp [hemp, hinvalid, sseHeaders, postHeaders]
  · intro ⟨hlen, hchars⟩
    have hemp : s ≠ "" := by
      intro he
      rw [he] at hlen
      simp [String.length] at hlen
    have hvalid : isValidApiKey s = true := by
      unfold isValidApiKey
      have : (s = "" || s.length < 6) = false := by
        simp [hemp]; omega
      simp [this, hchars]
    unfold initApiKey
    rw [hk]
    simp [hemp, hvalid, sseHeaders, postHeaders]

/-- Witness for C9: the valid key `"abc-123"` given directly (no
environment key) is kept and produces bearer headers, and the short key
`"ab"` is discarded. -/
theorem api_key_validation_witness :
    (((("abc-123" : String).length < 6 ∨
        ¬ ("abc-123" : String).data.all isValidApiKeyChar) →
      sseHeaders (initApiKey (some "abc-123") none) = [] ∧
      postHeaders (initApiKey (some "abc-123") none) "sid" =
        [("Content-Type", "application/json"), ("MCP-Session-Id", "sid")]) ∧
     ((6 ≤ ("abc-123" : String).length ∧
        ("abc-123" : String).data.all isValidApiKeyChar) →
      initApiKey (some "abc-123") none = some "abc-123" ∧
      sseHeaders (initApiKey (some "abc-123") none) =
        [("Authorization", "Bearer " ++ "abc-123")] ∧
      ("Authorization", "Bearer " ++ "abc-123") ∈
        postHeaders (initApiKey (some "abc-123") none) "sid")) :=
  api_key_validation (some "abc-123") none "abc-123" "sid" (by decide)

/-- Every candidate with nonnegative trust score and snippet count scores
at least 0. -/
lemma scoreLib_nonneg (query : String) (lib : LibResult)
    (ht : 0 ≤ lib.trustScore.getD 0)
    (hc : 0 ≤ lib.codeSnippetCount.getD 0) :
    0 ≤ scoreLib query lib := by
  unfold scoreLib
  have h1 : (0 : ℚ) ≤
      (if pyLower (lib.name.getD "") = pyLower query then (100 : ℚ)
       else if pyContainsStr (pyLower query) (pyLower (lib.name.getD ""))
       then 50 else 0) := by
    split
    · norm_num
    · split <;> norm_num
  have h2 : (0 : ℚ) ≤ lib.trustScore.getD 0 * 10 :=
    mul_nonneg ht (by norm_num)
  have h3 : (0 : ℚ) ≤ min ((lib.codeSnippetCount.getD 0 : ℚ) / 100) 10 := by
    apply le_min
    · have hcq : (0 : ℚ) ≤ (lib.codeSnippetCount.getD 0 : ℚ) := by
        exact_mod_cast hc
      linarith
    · norm_num
  linarith

/-- Once the selection loop holds a candidate and its score, it computes
`runBest`. -/
lemma selectBestAux_some (query : String) :
    ∀ (libs : List LibResult) (b : LibResult),
      selectBestAux query libs (some b) (scoreLib query b) =
        some (runBest query b libs) := by
  intro libs
  induction libs with
  | nil => intro b; rfl
  | cons l ls ih =>
    intro b
    by_cases h : scoreLib query b < scoreLib query l
    · simp only [selectBestAux, runBest, if_pos h]
      exact ih l
    · simp only [selectBestAux, runBest, if_neg h]
      exact ih b

/-- `runBest` returns the first candidate attaining the maximal score
among the seed and the remaining list: it is an element of the list, its
score dominates every score, and every candidate before it scores
strictly less. -/
lemma runBest_spec (query : String) :
    ∀ (libs : List LibResult) (b : LibResult),
      ∃ pre suf,
        b :: libs = pre ++ runBest query b libs :: suf ∧
        (∀ l ∈ b :: libs,
          scoreLib query l ≤ scoreLib query (runBest query b libs)) ∧
        (∀ l ∈ pre,
          scoreLib query l < scoreLib query (runBest query b libs)) := by
  intro libs
  induction libs with
  | nil =>
    intro b
    refine ⟨[], [], rfl, ?_, by simp⟩
    intro l hl
    simp only [List.mem_singleton] at hl
    rw [hl]
    exact le_refl _
  | cons l ls ih =>
    intro b
    by_cases h : scoreLib query b < scoreLib query l
    · have hr : runBest query b (l :: ls) = runBest query l ls := by
        simp only [runBest, if_pos h]
      obtain ⟨pre, suf, hsplit, hmax, hpre⟩ := ih l
      rw [hr]
      refine ⟨b :: pre, suf, ?_, ?_, ?_⟩
      · rw [List.cons_append]
        exact congrArg (List.cons b) hsplit
      · intro x hx
        rcases List.mem_cons.mp hx with hxb | hxm
        · rw [hxb]
          exact le_of_lt (lt_of_lt_of_le h (hmax l (List.mem_cons_self l ls)))
        · exact hmax x hxm
      · intro x hx
        rcases List.mem_cons.mp hx with hxb | hxp
        · rw [hxb]
          exact lt_of_lt_of_le h (hmax l (List.mem_cons_self l ls))
        · exact hpre x hxp
    · have hr : runBest query b (l :: ls) = runBest query b ls := by
        simp only [runBest, if_neg h]
      have hlb : scoreLib query l ≤ scoreLib query b := le_of_not_lt h
      obtain ⟨pre, suf, hsplit, hmax, hpre⟩ := ih b
      rw [hr]
      cases pre with
      | nil =>
        simp only [List.nil_append] at hsplit
        injection hsplit with hbeq hsuf
        refine ⟨[], l :: suf, ?_, ?_, by simp⟩
        · rw [List.nil_append, ← hbeq, hsuf]
        · intro x hx
          rcases List.mem_cons.mp hx with hxb | hx2
          · rw [hxb]
            exact hmax b (List.mem_cons_self b ls)
          · rcases List.mem_cons.mp hx2 with hxl | hxm
            · rw [hxl]
              exact le_trans hlb (hmax b (List.mem_cons_self b ls))
            · exact hmax x (List.mem_cons_of_mem b hxm)
      | cons p pre' =>
        injection hsplit with hbp hls
        have hbr : scoreLib query b < scoreLib query (runBest query b ls) := by
          have h0 := hpre p (List.mem_cons_self p pre')
          rw [← hbp] at h0
          exact h0
        refine ⟨b :: l :: pre', suf, ?_, ?_, ?_⟩
        · rw [List.cons_append, List.cons_append]
          exact congrArg (List.cons b) (congrArg (List.cons l) hls)
        · intro x hx
          rcases List.mem_cons.mp hx with hxb | hx2
          · rw [hxb]
            exact hmax b (List.mem_cons_self b ls)
          · rcases List.mem_cons.mp hx2 with hxl | hxm
            · rw [hxl]
              exact le_trans hlb (hmax b (List.mem_cons_self b ls))
            · exact hmax x (List.mem_cons_of_mem b hxm)
        · intro x hx
          rcases List.mem_cons.mp hx with hxb | hx2
          · rw [hxb]
            exact hbr
          · rcases List.mem_cons.mp hx2 with hxl | hxp
            · rw [hxl]
              exact lt_of_le_of_lt hlb hbr
            · exact hpre x (List.mem_cons_of_mem p hxp)

/-- Score of the exact-match candidate of the scenario: 100 + 95 + 1.5. -/
lemma score_react_concrete : scoreLib "react" reactCandidate = 393 / 2 := by
  unfold scoreLib reactCandidate
  rw [if_pos (by decide)]
  simp only [Option.getD_some]
  norm_num [min_def]

/-- Score of the substring-match candidate of the scenario: 50 + 80 + 0.5. -/
lemma score_router_concrete : scoreLib "react" routerCandidate = 261 / 2 := by
  unfold scoreLib routerCandidate
  rw [if_neg (by decide), if_pos (by decide)]
  simp only [Option.getD_some]
  norm_num [min_def]

/-- Claim C5: the selection loop of `resolve_library_id` scores each
candidate as 100 for an exact case-insensitive name match, else 50 for a
substring match, plus trust score times 10, plus
`min(snippet_count / 100, 10)`; the candidate with the highest score wins
and ties keep the first encountered (for candidates with nonnegative
trust scores and snippet counts, which keeps every score above the `-1`
loop seed); concretely, on query `"react"` the `React` candidate scores
196.5, the `react-router` candidate 130.5, and the exact match is
selected. -/
theorem scoring_selects_first_maximum (query : String)
    (libs : List LibResult)
    (h : ∀ lib ∈ libs,
      0 ≤ lib.trustScore.getD 0 ∧ 0 ≤ lib.codeSnippetCount.getD 0) :
    (match selectBestCandidate query libs with
     | none => libs = []
     | some m =>
        ∃ pre suf, libs = pre ++ m :: suf ∧
          (∀ lib ∈ libs, scoreLib query lib ≤ scoreLib query m) ∧
          (∀ lib ∈ pre, scoreLib query lib < scoreLib query m)) ∧
    scoreLib "react" reactCandidate = 393 / 2 ∧
    scoreLib "react" routerCandidate = 261 / 2 ∧
    resolveSelection "react" [reactCandidate, routerCandidate] =
      some "/facebook/react" := by
  refine ⟨?_, score_react_concrete, score_router_concrete, ?_⟩
  · cases libs with
    | nil => rfl
    | cons l ls =>
      obtain ⟨ht, hc⟩ := h l (List.mem_cons_self l ls)
      have hpos : (-1 : ℚ) < scoreLib query l :=
        lt_of_lt_of_le (by norm_num) (scoreLib_nonneg query l ht hc)
      have hsel : selectBestCandidate query (l :: ls) =
          some (runBest query l ls) := by
        unfold selectBestCandidate
        simp only [selectBestAux, if_pos hpos]
        exact selectBestAux_some query ls l
      rw [hsel]
      exact runBest_spec query ls l
  · unfold resolveSelection selectBestCandidate
    simp only [selectBestAux, score_react_concrete, score_router_concrete]
    norm_num
    rfl

/-- Witness for C5: the theorem applied to the two-candidate scenario
list. -/
theorem scoring_selects_first_maximum_witness :
    (∀ lib ∈ [reactCandidate, routerCandidate],
      0 ≤ lib.trustScore.getD 0 ∧ 0 ≤ lib.codeSnippetCount.getD 0) ∧
    ((match selectBestCandidate "react" [reactCandidate, routerCandidate] with
      | none => ([reactCandidate, routerCandidate] : List LibResult) = []
      | some m =>
         ∃ pre suf, [reactCandidate, routerCandidate] = pre ++ m :: suf ∧
           (∀ lib ∈ [reactCandidate, routerCandidate],
             scoreLib "react" lib ≤ scoreLib "react" m) ∧
           (∀ lib ∈ pre, scoreLib "react" lib < scoreLib "react" m)) ∧
     scoreLib "react" reactCandidate = 393 / 2 ∧
     scoreLib "react" routerCandidate = 261 / 2 ∧
     resolveSelection "react" [reactCandidate, routerCandidate] =
       some "/facebook/react") := by
  have hp : ∀ lib ∈ [reactCandidate, routerCandidate],
      0 ≤ lib.trustScore.getD 0 ∧ 0 ≤ lib.codeSnippetCount.getD 0 := by
    intro lib hl
    rcases List.mem_cons.mp hl with h1 | h2
    · rw [h1]
      refine ⟨?_, ?_⟩ <;> norm_num [reactCandidate]
    · rcases List.mem_cons.mp h2 with h1 | h3
      · rw [h1]
        refine ⟨?_, ?_⟩ <;> norm_num [routerCandidate]
      · simp at h3
  exact ⟨hp, scoring_selects_first_maximum "react" _ hp⟩

/-- Contribution of one prose line to `processProseLines`. -/
lemma processProseLines_mem :
    ∀ (lines : List String) (line : String), line ∈ lines →
      (pyStartsWith line "TITLE:" = true →
        ("**" ++ pyStrip (pyReplace line "TITLE:" "") ++ "**") ∈
          processProseLines lines) ∧
      (pyStartsWith line "TITLE:" = false →
        pyStartsWith line "DESCRIPTION:" = true →
        pyStrip (pyReplace line "DESCRIPTION:" "") ∈
          processProseLines lines) ∧
      (pyStartsWith line "TITLE:" = false →
        pyStartsWith line "DESCRIPTION:" = false →
        pyStrip line ≠ "" → line ∈ processProseLines lines) := by
  intro lines
  induction lines with
  | nil => intro line hl; cases hl
  | cons l ls ih =>
    intro line hl
    rcases List.mem_cons.mp hl with heq | hmem
    · subst heq
      refine ⟨?_, ?_, ?_⟩
      · intro h1
        simp only [processProseLines, h1]
        simp
      · intro h1 h2
        simp only [processProseLines, h1, h2]
        simp
      · intro h1 h2 h3
        simp only [processProseLines, h1, h2]
        rw [if_pos h3]
        simp
    · obtain ⟨i1, i2, i3⟩ := ih line hmem
      refine ⟨fun h1 => ?_, fun h1 h2 => ?_, fun h1 h2 h3 => ?_⟩
      · simp only [processProseLines]
        exact List.mem_append_right _ (i1 h1)
      · simp only [processProseLines]
        exact List.mem_append_right _ (i2 h1 h2)
      · simp only [processProseLines]
        exact List.mem_append_right _ (i3 h1 h2 h3)

/-- Contribution of one prose line to `processTextPart`. -/
lemma processTextPart_mem (text line : String)
    (hl : line ∈ pySplitLines (pyStrip text)) :
    (pyStartsWith line "TITLE:" = true →
      ("**" ++ pyStrip (pyReplace line "TITLE:" "") ++ "**") ∈
        processTextPart text) ∧
    (pyStartsWith line "TITLE:" = false →
      pyStartsWith line "DESCRIPTION:" = true →
      pyStrip (pyReplace line "DESCRIPTION:" "") ∈ processTextPart text) ∧
    (pyStartsWith line "TITLE:" = false →
      pyStartsWith line "DESCRIPTION:" = false →
      pyStrip line ≠ "" → line ∈ processTextPart text) := by
  by_cases ht : pyStrip text = ""
  · rw [ht] at hl
    have hline : line = "" := by
      simpa [pySplitLines, splitLinesGo] using hl
    subst hline
    refine ⟨?_, ?_, ?_⟩
    · intro h1
      exact absurd h1 (by decide)
    · intro h1 h2
      exact absurd h2 (by decide)
    · intro h1 h2 h3
      exact absurd (by decide : pyStrip "" = "") h3
  · unfold processTextPart
    rw [if_neg ht]
    exact processProseLines_mem _ line hl

/-- Every capture-group pair of a split result reappears in the
formatter output as the re-rendered fenced block. -/
lemma formatParts_triples_aux :
    ∀ (n : Nat) (parts : List String), parts.length ≤ n →
      ∀ p ∈ partsTriples parts,
        ("\n```" ++ p.1 ++ "\n" ++ p.2 ++ "```\n") ∈ formatParts parts := by
  intro n
  induction n with
  | zero =>
    intro parts hlen p hp
    have h0 : parts = [] := List.length_eq_zero.mp (Nat.le_zero.mp hlen)
    subst h0
    simp [partsTriples] at hp
  | succ n ih =>
    intro parts hlen p hp
    rcases parts with _ | ⟨t, _ | ⟨l, _ | ⟨c, rest⟩⟩⟩
    · simp [partsTriples] at hp
    · simp [partsTriples] at hp
    · simp [partsTriples] at hp
    · simp only [partsTriples, List.mem_cons] at hp
      simp only [formatParts]
      rcases hp with hp1 | hp2
      · subst hp1
        exact List.mem_append_right _ (List.mem_cons_self _ _)
      · refine List.mem_append_right _ (List.mem_cons_of_mem _ ?_)
        refine ih rest ?_ p hp2
        simp only [List.length_cons] at hlen
        omega

/-- Every prose part of a split result contributes its rendered lines to
the formatter output. -/
lemma formatParts_prose_aux :
    ∀ (n : Nat) (parts : List String), parts.length ≤ n →
      ∀ t ∈ partsProse parts, ∀ line ∈ pySplitLines (pyStrip t),
        (pyStartsWith line "TITLE:" = true →
          ("**" ++ pyStrip (pyReplace line "TITLE:" "") ++ "**") ∈
            formatParts parts) ∧
        (pyStartsWith line "TITLE:" = false →
          pyStartsWith line "DESCRIPTION:" = true →
          pyStrip (pyReplace line "DESCRIPTION:" "") ∈ formatParts parts) ∧
        (pyStartsWith line "TITLE:" = false →
          pyStartsWith line "DESCRIPTION:" = false →
          pyStrip line ≠ "" → line ∈ formatParts parts) := by
  intro n
  induction n with
  | zero =>
    intro parts hlen t ht
    have h0 : parts = [] := List.length_eq_zero.mp (Nat.le_zero.mp hlen)
    subst h0
    simp [partsProse] at ht
  | succ n ih =>
    intro parts hlen t ht line hline
    rcases parts with _ | ⟨t0, _ | ⟨l, _ | ⟨c, rest⟩⟩⟩
    · simp [partsProse] at ht
    · simp only [partsProse, List.mem_singleton] at ht
      subst ht
      simp only [formatParts]
      exact processTextPart_mem t line hline
    · simp only [partsProse, List.mem_singleton] at ht
      subst ht
      simp only [formatParts]
      exact processTextPart_mem t line hline
    · simp only [partsProse, List.mem_cons] at ht
      simp only [formatParts]
      rcases ht with ht1 | ht2
      · subst ht1
        obtain ⟨a1, a2, a3⟩ := processTextPart_mem t line hline
        exact ⟨fun h1 => List.mem_append_left _ (a1 h1),
          fun h1 h2 => List.mem_append_left _ (a2 h1 h2),
          fun h1 h2 h3 => List.mem_append_left _ (a3 h1 h2 h3)⟩
      · have hrest : rest.length ≤ n := by
          simp only [List.length_cons] at hlen
          omega
        obtain ⟨a1, a2, a3⟩ := ih rest hrest t ht2 line hline
        exact ⟨fun h1 => List.mem_append_right _ (List.mem_cons_of_mem _ (a1 h1)),
          fun h1 h2 =>
            List.mem_append_right _ (List.mem_cons_of_mem _ (a2 h1 h2)),
          fun h1 h2 h3 =>
            List.mem_append_right _ (List.mem_cons_of_mem _ (a3 h1 h2 h3))⟩

/-- Claim C7 counterexample: the formatter does not pass every prose
line through unchanged — on the body `"alpha\n\nbeta"`, which has no
code fences and no markers, the blank middle line is dropped, so the
output differs from the input. -/
theorem docs_formatter_not_line_preserving :
    formatDocs "alpha\n\nbeta" = "alpha\nbeta" ∧
    formatDocs "alpha\n\nbeta" ≠ "alpha\n\nbeta" :=
  ⟨by decide, by decide⟩

/-- Claim C7 as amended: the formatter preserves every fenced code block
verbatim (language tag and code content re-emitted as a fenced block),
rewrites `TITLE:` lines into bold heading lines and `DESCRIPTION:` lines
with the marker stripped, and passes every other non-blank prose line
through unchanged, while blank prose lines are dropped and whitespace at
prose-segment boundaries is trimmed; concretely, a body with a fenced
python and a fenced javascript block and a `TITLE:` line formats with
both fences verbatim and the title emphasized. -/
theorem docs_formatter_blocks_verbatim (docs : String) :
    formatDocs docs = pyJoin "\n" (formatParts (codeBlockSplit docs)) ∧
    (∀ p ∈ partsTriples (codeBlockSplit docs),
      ("\n```" ++ p.1 ++ "\n" ++ p.2 ++ "```\n") ∈
        formatParts (codeBlockSplit docs)) ∧
    (∀ t ∈ partsProse (codeBlockSplit docs),
      ∀ line ∈ pySplitLines (pyStrip t),
        (pyStartsWith line "TITLE:" = true →
          ("**" ++ pyStrip (pyReplace line "TITLE:" "") ++ "**") ∈
            formatParts (codeBlockSplit docs)) ∧
        (pyStartsWith line "TITLE:" = false →
          pyStartsWith line "DESCRIPTION:" = true →
          pyStrip (pyReplace line "DESCRIPTION:" "") ∈
            formatParts (codeBlockSplit docs)) ∧
        (pyStartsWith line "TITLE:" = false →
          pyStartsWith line "DESCRIPTION:" = false →
          pyStrip line ≠ "" → line ∈ formatParts (codeBlockSplit docs))) ∧
    formatDocs
        "TITLE: Intro\n```python\nprint(1)\n```\nmid\n```js\nlet x\n```\ntail" =
      "**Intro**\n\n```python\nprint(1)\n```\n\nmid\n\n```js\nlet x\n```\n\ntail" := by
  refine ⟨rfl, ?_, ?_, by decide⟩
  · intro p hp
    exact formatParts_triples_aux (codeBlockSplit docs).length _ le_rfl p hp
  · intro t ht line hline
    exact formatParts_prose_aux (codeBlockSplit docs).length _ le_rfl t ht
      line hline

/-- Witness for the amended C7: the python block of the scenario body is
among the split's capture pairs, and the theorem places its re-rendered
fence in the formatter output. -/
theorem docs_formatter_blocks_verbatim_witness :
    ("python", "print(1)\n") ∈ partsTriples (codeBlockSplit
      "TITLE: Intro\n```python\nprint(1)\n```\nmid\n```js\nlet x\n```\ntail") ∧
    ("\n```" ++ "python" ++ "\n" ++ "print(1)\n" ++ "```\n") ∈
      formatParts (codeBlockSplit
        "TITLE: Intro\n```python\nprint(1)\n```\nmid\n```js\nlet x\n```\ntail") := by
  refine ⟨by decide, ?_⟩
  exact (docs_formatter_blocks_verbatim
    "TITLE: Intro\n```python\nprint(1)\n```\nmid\n```js\nlet x\n```\ntail").2.1
    ("python", "print(1)\n") (by decide)

/-- Claim C10: when `index.json` exists but holds invalid JSON
(`json.loads` fails), `_load_cache_index` returns the empty index rather
than raising: the service starts with an empty cache. -/
theorem corrupted_index_loads_empty :
    loadCacheIndex true true none = [] := rfl

/-- Dict assignment puts the pair in the dict. -/
lemma mem_dictSet_self {α : Type} :
    ∀ (d : List (String × α)) (k : String) (v : α), (k, v) ∈ dictSet d k v := by
  intro d k v
  induction d with
  | nil => simp [dictSet]
  | cons p rest ih =>
    obtain ⟨k', v'⟩ := p
    by_cases h : k' = k
    · simp [dictSet, h]
    · simp only [dictSet, if_neg h, List.mem_cons]
      exact Or.inr ih

/-- Dict assignment under another key preserves membership. -/
lemma mem_dictSet_ne {α : Type} :
    ∀ (d : List (String × α)) (k k' : String) (v v' : α), k' ≠ k →
      (k', v') ∈ d → (k', v') ∈ dictSet d k v := by
  intro d k k' v v' hne
  induction d with
  | nil => intro h; cases h
  | cons p rest ih =>
    obtain ⟨a, b⟩ := p
    intro hmem
    by_cases h : a = k
    · simp only [dictSet, if_pos h, List.mem_cons]
      rcases List.mem_cons.mp hmem with h1 | h1
      · exact absurd (congrArg Prod.fst h1) (by simpa [h] using hne)
      · exact Or.inr h1
    · simp only [dictSet, if_neg h, List.mem_cons]
      rcases List.mem_cons.mp hmem with h1 | h1
      · exact Or.inl h1
      · exact Or.inr (ih h1)

/-- Dict assignment under another key preserves lookups. -/
lemma lookup_dictSet_ne {α : Type} :
    ∀ (d : List (String × α)) (k k' : String) (v : α), k ≠ k' →
      lookupKey (dictSet d k v) k' = lookupKey d k' := by
  intro d k k' v hne
  induction d with
  | nil => simp [dictSet, lookupKey, hne]
  | cons p rest ih =>
    obtain ⟨a, b⟩ := p
    by_cases h : a = k
    · simp only [dictSet, if_pos h, lookupKey, if_neg hne, h]
    · simp only [dictSet, if_neg h, lookupKey]
      by_cases h2 : a = k'
      · simp [h2]
      · simp [h2, ih]

/-- Cache keys of distinct libraries within one step are distinct. -/
lemma cacheKey_ne (a b step : String) (h : a ≠ b) :
    a ++ "_" ++ step ≠ b ++ "_" ++ step := by
  intro heq
  apply h
  have hd := congrArg String.data heq
  rw [String.data_append, String.data_append, String.data_append,
    String.data_append] at hd
  have h1 := List.append_cancel_right hd
  have h2 := List.append_cancel_right h1
  cases a; cases b
  exact congrArg String.mk h2

/-- Claim C3 counterexample: with a valid index entry for
`react_5-tasks` but no body file on disk, the enrichment loop leaves its
state completely unchanged — in particular it makes no client call at
all (no `resolve-library-id`, hence no fetch) and records no docs for
the library, contradicting the claimed cache-miss re-fetch. -/
theorem valid_entry_missing_body_no_fetch :
    cacheHit envMissingBody
      [("react_5-tasks", ⟨some 0, some "/facebook/react"⟩)]
      ("react" ++ "_" ++ "5-tasks") = true ∧
    envMissingBody.fileExists ("react" ++ "_" ++ "5-tasks") = false ∧
    enrichLoop envMissingBody "5-tasks" ["react"]
      ⟨[], [("react_5-tasks", ⟨some 0, some "/facebook/react"⟩)], 0, []⟩ =
      ⟨[], [("react_5-tasks", ⟨some 0, some "/facebook/react"⟩)], 0, []⟩ := by
  exact ⟨by decide, rfl, by decide⟩

/-- Claim C3 as amended: a library whose cache index entry exists and is
valid but whose body file is missing on disk is silently skipped: the
loop iteration is a no-op for it — no network fetch is attempted, no
docs entry is recorded — and no error is raised (the iteration is total
and continues with the remaining libraries). -/
theorem valid_entry_missing_body_skips (env : EnrichEnv)
    (step library : String) (rest : List String) (st : LoopState)
    (hhit : cacheHit env st.cacheIndex (library ++ "_" ++ step) = true)
    (hfile : env.fileExists (library ++ "_" ++ step) = false) :
    enrichStep env step library st = st ∧
    enrichLoop env step (library :: rest) st = enrichLoop env step rest st := by
  have hstep : enrichStep env step library st = st := by
    unfold enrichStep readCached
    rw [hhit, if_pos rfl, hfile, if_neg Bool.false_ne_true]
  refine ⟨hstep, ?_⟩
  have h0 : enrichLoop env step (library :: rest) st =
      enrichLoop env step rest (enrichStep env step library st) := rfl
  rw [h0, hstep]

/-- Witness for the amended C3: the missing-body scenario concretely. -/
theorem valid_entry_missing_body_skips_witness :
    enrichStep envMissingBody "5-tasks" "react"
      ⟨[], [("react_5-tasks", ⟨some 0, some "/facebook/react"⟩)], 0, []⟩ =
      ⟨[], [("react_5-tasks", ⟨some 0, some "/facebook/react"⟩)], 0, []⟩ ∧
    enrichLoop envMissingBody "5-tasks" ["react"]
      ⟨[], [("react_5-tasks", ⟨some 0, some "/facebook/react"⟩)], 0, []⟩ =
      enrichLoop envMissingBody "5-tasks" []
        ⟨[], [("react_5-tasks", ⟨some 0, some "/facebook/react"⟩)], 0, []⟩ :=
  valid_entry_missing_body_skips envMissingBody "5-tasks" "react" []
    ⟨[], [("react_5-tasks", ⟨some 0, some "/facebook/react"⟩)], 0, []⟩
    (by decide) rfl

/-- Claim C4 counterexample: when the body file exists but the lock
acquisition for the read times out, the loop skips the library — it
makes no client call at all (no resolve, no fetch) and records no docs —
contradicting the claim that a network fetch is still attempted. -/
theorem lock_timeout_read_no_fetch :
    envLockStarved.lockOk 0 = false ∧
    envLockStarved.fileExists ("react" ++ "_" ++ "5-tasks") = true ∧
    enrichLoop envLockStarved "5-tasks" ["react"]
      ⟨[], [("react_5-tasks", ⟨some 0, some "/facebook/react"⟩)], 0, []⟩ =
      ⟨[], [("react_5-tasks", ⟨some 0, some "/facebook/react"⟩)], 1, []⟩ := by
  exact ⟨rfl, rfl, by decide⟩

/-- Claim C4 as amended: a lock-acquisition timeout while loading the
index file degrades to the empty index, and a lock-acquisition timeout
while reading a cached body file makes the loop skip that library for
this call (no docs recorded, no fetch attempted) and continue; neither
raises to the caller. -/
theorem lock_timeout_degrades (env : EnrichEnv) (step library : String)
    (rest : List String) (st : LoopState) (parsed : Option CacheIndex)
    (hhit : cacheHit env st.cacheIndex (library ++ "_" ++ step) = true)
    (hfile : env.fileExists (library ++ "_" ++ step) = true)
    (hlock : env.lockOk st.lockCtr = false) :
    loadCacheIndex true false parsed = [] ∧
    enrichStep env step library st = { st with lockCtr := st.lockCtr + 1 } ∧
    enrichLoop env step (library :: rest) st =
      enrichLoop env step rest { st with lockCtr := st.lockCtr + 1 } := by
  have hstep : enrichStep env step library st =
      { st with lockCtr := st.lockCtr + 1 } := by
    unfold enrichStep readCached
    rw [hhit, if_pos rfl, hfile, if_pos rfl, hlock,
      if_neg Bool.false_ne_true]
  refine ⟨rfl, hstep, ?_⟩
  have h0 : enrichLoop env step (library :: rest) st =
      enrichLoop env step rest (enrichStep env step library st) := rfl
  rw [h0, hstep]

/-- Every element of a joined list is a substring of the join. -/
lemma pyJoin_infix (sep : String) :
    ∀ (xs : List String) (x : String), x ∈ xs →
      x.data <:+: (pyJoin sep xs).data := by
  intro xs
  induction xs with
  | nil => intro x hx; cases hx
  | cons a ys ih =>
    intro x hx
    cases ys with
    | nil =>
      simp only [List.mem_singleton] at hx
      subst hx
      exact List.infix_rfl
    | cons b zs =>
      have hE : pyJoin sep (a :: b :: zs) = a ++ sep ++ pyJoin sep (b :: zs) :=
        rfl
      rw [hE]
      rcases List.mem_cons.mp hx with hxa | hxm
      · subst hxa
        refine ⟨[], sep.data ++ (pyJoin sep (b :: zs)).data, ?_⟩
        rw [String.data_append, String.data_append]
        simp [List.append_assoc]
      · have h1 := ih x hxm
        have h2 : (a ++ sep ++ pyJoin sep (b :: zs)).data =
            (a ++ sep).data ++ (pyJoin sep (b :: zs)).data :=
          String.data_append _ _
        rw [h2]
        exact h1.trans (List.suffix_append _ _).isInfix

/-- The docs stored for a library are a substring of the formatted
documentation section. -/
lemma section_contains (libraryDocs : List (String × String))
    (library docsStr : String) (hmem : (library, docsStr) ∈ libraryDocs) :
    docsStr.data <:+: (formatLibraryDocsSection libraryDocs).data := by
  have hne : libraryDocs ≠ [] := by rintro rfl; cases hmem
  unfold formatLibraryDocsSection
  rw [if_neg hne]
  apply pyJoin_infix
  apply List.mem_append_right
  exact List.mem_flatMap.mpr ⟨(library, docsStr), hmem, by simp⟩

/-- Without an explicit placeholder marker in the prompt, the generated
section is a substring of the enriched prompt (it is inserted as a whole
line block or appended). -/
lemma insertSection_contains (prompt sec : String)
    (hmarker : pyContainsStr "<context7_docs>" prompt = false) :
    sec.data <:+: (insertSection prompt sec).data := by
  unfold insertSection
  rw [hmarker, if_neg Bool.false_ne_true]
  by_cases hidx : headingIdxGo 0 (pySplitLines prompt) > 0
  · rw [if_pos hidx]
    apply pyJoin_infix
    unfold pyInsert
    exact List.mem_append_right _ (List.mem_cons_self _ _)
  · rw [if_neg hidx]
    have h2 : (prompt ++ "\n\n" ++ sec).data =
        (prompt ++ "\n\n").data ++ sec.data := String.data_append _ _
    rw [h2]
    exact (List.suffix_append _ _).isInfix

/-- Processing one library different from `L` preserves a false cache
hit for `L`'s key, `L`'s entry of the docs dict, and the absence of a
docs fetch for `L`. -/
lemma enrichStep_other (env : EnrichEnv) (step lib L : String)
    (hne : lib ≠ L) (st : LoopState) :
    (cacheHit env st.cacheIndex (L ++ "_" ++ step) = false →
      cacheHit env (enrichStep env step lib st).cacheIndex
        (L ++ "_" ++ step) = false) ∧
    (∀ v, (L, v) ∈ st.libraryDocs →
      (L, v) ∈ (enrichStep env step lib st).libraryDocs) ∧
    (∀ id t, Event.docsCall L id t ∉ st.events →
      Event.docsCall L id t ∉ (enrichStep env step lib st).events) := by
  have hLne : L ≠ lib := fun h => hne h.symm
  have hkey := cacheKey_ne lib L step hne
  unfold enrichStep
  by_cases h1 : cacheHit env st.cacheIndex (lib ++ "_" ++ step) = true
  · rw [if_pos h1]
    unfold readCached
    by_cases h2 : env.fileExists (lib ++ "_" ++ step) = true
    · rw [if_pos h2]
      by_cases h3 : env.lockOk st.lockCtr = true
      · rw [if_pos h3]
        exact ⟨fun hh => hh,
          fun v hv => mem_dictSet_ne _ _ _ _ _ hLne hv,
          fun id t hn => hn⟩
      · rw [if_neg h3]
        exact ⟨fun hh => hh, fun v hv => hv, fun id t hn => hn⟩
    · rw [if_neg h2]
      exact ⟨fun hh => hh, fun v hv => hv, fun id t hn => hn⟩
  · rw [if_neg h1]
    simp only [fetchLibrary]
    cases hres : env.resolve lib with
    | none =>
      refine ⟨fun hh => hh,
        fun v hv => mem_dictSet_ne _ _ _ _ _ hLne hv,
        fun id t hn => ?_⟩
      intro hmem
      rcases List.mem_append.mp hmem with h | h
      · exact hn h
      · simp at h
    | some libId =>
      dsimp only
      by_cases hd : env.getDocs libId (getTopicForStep step) ≠ ""
      · rw [if_pos hd]
        by_cases hlk : env.lockOk st.lockCtr = true
        · rw [if_pos hlk]
          refine ⟨?_, fun v hv => mem_dictSet_ne _ _ _ _ _ hLne hv,
            fun id t hn => ?_⟩
          · intro hh
            show cacheHit env
              (dictSet st.cacheIndex (lib ++ "_" ++ step)
                ⟨some env.now, some libId⟩) (L ++ "_" ++ step) = false
            unfold cacheHit
            rw [lookup_dictSet_ne _ _ _ _ hkey]
            exact hh
          · intro hmem
            rcases List.mem_append.mp hmem with h | h
            · rcases List.mem_append.mp h with h' | h'
              · rcases List.mem_append.mp h' with h'' | h''
                · exact hn h''
                · simp at h''
              · simp only [List.mem_singleton] at h'
                have := (Event.docsCall.injEq _ _ _ _ _ _).mp h'
                exact hne (this.1.symm)
            · simp at h
        · rw [if_neg hlk]
          refine ⟨fun hh => hh,
            fun v hv => mem_dictSet_ne _ _ _ _ _ hLne hv,
            fun id t hn => ?_⟩
          intro hmem
          rcases List.mem_append.mp hmem with h | h
          · rcases List.mem_append.mp h with h' | h'
            · exact hn h'
            · simp at h'
          · simp only [List.mem_singleton] at h
            have := (Event.docsCall.injEq _ _ _ _ _ _).mp h
            exact hne (this.1.symm)
      · rw [if_neg hd]
        refine ⟨fun hh => hh,
          fun v hv => mem_dictSet_ne _ _ _ _ _ hLne hv,
          fun id t hn => ?_⟩
        intro hmem
        rcases List.mem_append.mp hmem with h | h
        · rcases List.mem_append.mp h with h' | h'
          · exact hn h'
          · simp at h'
        · simp only [List.mem_singleton] at h
          have := (Event.docsCall.injEq _ _ _ _ _ _).mp h
          exact hne (this.1.symm)

/-- A loop over libraries not containing `L` preserves the same three
facts. -/
lemma enrichLoop_other (env : EnrichEnv) (step L : String) :
    ∀ (libs : List String) (st : LoopState), L ∉ libs →
      (cacheHit env st.cacheIndex (L ++ "_" ++ step) = false →
        cacheHit env (enrichLoop env step libs st).cacheIndex
          (L ++ "_" ++ step) = false) ∧
      (∀ v, (L, v) ∈ st.libraryDocs →
        (L, v) ∈ (enrichLoop env step libs st).libraryDocs) ∧
      (∀ id t, Event.docsCall L id t ∉ st.events →
        Event.docsCall L id t ∉ (enrichLoop env step libs st).events) := by
  intro libs
  induction libs with
  | nil => intro st _; exact ⟨fun h => h, fun v hv => hv, fun id t hn => hn⟩
  | cons lib rest ih =>
    intro st hnot
    have hne : lib ≠ L := fun h => hnot (h ▸ List.mem_cons_self lib rest)
    have hrest : L ∉ rest := fun h => hnot (List.mem_cons_of_mem _ h)
    obtain ⟨s1, s2, s3⟩ := enrichStep_other env step lib L hne st
    obtain ⟨l1, l2, l3⟩ := ih (enrichStep env step lib st) hrest
    exact ⟨fun hh => l1 (s1 hh), fun v hv => l2 v (s2 v hv),
      fun id t hn => l3 id t (s3 id t hn)⟩

/-- The loop iteration for a library with no valid cache entry and
failing resolution: record the placeholder and the single resolve call. -/
lemma enrichStep_unresolved (env : EnrichEnv) (step L : String)
    (st : LoopState)
    (hnohit : cacheHit env st.cacheIndex (L ++ "_" ++ step) = false)
    (hres : env.resolve L = none) :
    enrichStep env step L st =
      { st with
        libraryDocs := dictSet st.libraryDocs L (unresolvedNote L),
        events := st.events ++ [Event.resolveCall L] } := by
  unfold enrichStep
  rw [hnohit, if_neg Bool.false_ne_true]
  simp only [fetchLibrary, hres]
  rfl

/-- The loop splits over list concatenation. -/
lemma enrichLoop_append (env : EnrichEnv) (step : String) :
    ∀ (xs ys : List String) (st : LoopState),
      enrichLoop env step (xs ++ ys) st =
        enrichLoop env step ys (enrichLoop env step xs st) := by
  intro xs
  induction xs with
  | nil => intro ys st; rfl
  | cons x xs ih => intro ys st; exact ih ys (enrichStep env step x st)

/-- Witness for the amended C4: the lock-starved scenario concretely. -/
theorem lock_timeout_degrades_witness :
    loadCacheIndex true false none = [] ∧
    enrichStep envLockStarved "5-tasks" "react"
      ⟨[], [("react_5-tasks", ⟨some 0, some "/facebook/react"⟩)], 0, []⟩ =
      ⟨[], [("react_5-tasks", ⟨some 0, some "/facebook/react"⟩)], 1, []⟩ ∧
    enrichLoop envLockStarved "5-tasks" ["react"]
      ⟨[], [("react_5-tasks", ⟨some 0, some "/facebook/react"⟩)], 0, []⟩ =
      enrichLoop envLockStarved "5-tasks" []
        ⟨[], [("react_5-tasks", ⟨some 0, some "/facebook/react"⟩)], 1, []⟩ :=
  lock_timeout_degrades envLockStarved "5-tasks" "react" []
    ⟨[], [("react_5-tasks", ⟨some 0, some "/facebook/react"⟩)], 0, []⟩
    none (by decide) rfl rfl

set_option maxRecDepth 100000 in
/-- Claim C6: a library `L` among the determined libraries (appearing
once) with no valid cache entry and failing resolution gets the literal
HTML-comment placeholder `<!-- Could not resolve library: L -->` as a
substring of the enriched prompt (shown for prompts without the explicit
placeholder marker; the marker branch is covered by the concrete
conjunct below), while no `get-library-docs` fetch is ever made on `L`'s
behalf; the call is total, raising nothing. -/
theorem unresolved_library_placeholder (env : EnrichEnv)
    (step L prompt : String) (pre post : List String) (index : CacheIndex)
    (hres : env.resolve L = none)
    (hpre : L ∉ pre) (hpost : L ∉ post)
    (hnohit : cacheHit env index (L ++ "_" ++ step) = false)
    (hmarker : pyContainsStr "<context7_docs>" prompt = false) :
    ((unresolvedNote L).data <:+:
      (enrichPrompt env step (pre ++ L :: post) prompt index).1.data ∧
    (∀ id t, Event.docsCall L id t ∉
      (enrichPrompt env step (pre ++ L :: post) prompt index).2.events)) ∧
    pyContainsStr (unresolvedNote "unknownlib")
      (enrichPrompt envUnresolved "5-tasks" ["unknownlib"]
        "Intro\n<context7_docs>\n</context7_docs>\nrest" []).1 = true := by
  have hlibs : pre ++ L :: post ≠ [] := by simp
  obtain ⟨p1, p2, p3⟩ :=
    enrichLoop_other env step L pre ⟨[], index, 0, []⟩ hpre
  have hhit1 : cacheHit env
      (enrichLoop env step pre ⟨[], index, 0, []⟩).cacheIndex
      (L ++ "_" ++ step) = false := p1 hnohit
  have hev1 : ∀ id t, Event.docsCall L id t ∉
      (enrichLoop env step pre ⟨[], index, 0, []⟩).events :=
    fun id t => p3 id t (by simp)
  have hstepL := enrichStep_unresolved env step L
    (enrichLoop env step pre ⟨[], index, 0, []⟩) hhit1 hres
  have hdocs2 : (L, unresolvedNote L) ∈
      (enrichStep env step L
        (enrichLoop env step pre ⟨[], index, 0, []⟩)).libraryDocs := by
    rw [hstepL]
    exact mem_dictSet_self _ _ _
  have hev2 : ∀ id t, Event.docsCall L id t ∉
      (enrichStep env step L
        (enrichLoop env step pre ⟨[], index, 0, []⟩)).events := by
    intro id t
    rw [hstepL]
    intro hmem
    rcases List.mem_append.mp
      (by simpa using hmem : Event.docsCall L id t ∈
        (enrichLoop env step pre ⟨[], index, 0, []⟩).events ++
          [Event.resolveCall L]) with h | h
    · exact hev1 id t h
    · simp at h
  obtain ⟨q1, q2, q3⟩ := enrichLoop_other env step L post
    (enrichStep env step L (enrichLoop env step pre ⟨[], index, 0, []⟩))
    hpost
  have hloop : enrichLoop env step (pre ++ L :: post) ⟨[], index, 0, []⟩ =
      enrichLoop env step post
        (enrichStep env step L
          (enrichLoop env step pre ⟨[], index, 0, []⟩)) := by
    rw [enrichLoop_append]
    rfl
  have h1 : enrichPrompt env step (pre ++ L :: post) prompt index =
      (insertSection prompt
        (formatLibraryDocsSection
          (enrichLoop env step (pre ++ L :: post)
            ⟨[], index, 0, []⟩).libraryDocs),
       enrichLoop env step (pre ++ L :: post) ⟨[], index, 0, []⟩) := by
    unfold enrichPrompt
    rw [if_neg hlibs]
  refine ⟨⟨?_, ?_⟩, by decide⟩
  · rw [h1, hloop]
    exact (section_contains _ _ _ (q2 _ hdocs2)).trans
      (insertSection_contains prompt _ hmarker)
  · intro id t
    rw [h1, hloop]
    exact q3 id t (hev2 id t)

/-- Witness for C6: the `unknownlib` scenario concretely — the
placeholder comment is a substring of the result and no docs fetch for
`unknownlib` appears in the call trace. -/
theorem unresolved_library_placeholder_witness :
    ((unresolvedNote "unknownlib").data <:+:
      (enrichPrompt envUnresolved "5-tasks" ([] ++ "unknownlib" :: [])
        "Do things" []).1.data) ∧
    Event.docsCall "unknownlib" "/x/y" "t" ∉
      (enrichPrompt envUnresolved "5-tasks" ([] ++ "unknownlib" :: [])
        "Do things" []).2.events :=
  ⟨((unresolved_library_placeholder envUnresolved "5-tasks" "unknownlib"
      "Do things" [] [] [] rfl (by simp) (by simp) rfl (by decide)).1).1,
   ((unresolved_library_placeholder envUnresolved "5-tasks" "unknownlib"
      "Do things" [] [] [] rfl (by simp) (by simp) rfl (by decide)).1).2
     "/x/y" "t"⟩

/-- What the `insert_index` search computes: either no line past the
third has a `##`-prefixed stripped form (result 0), or the result is the
first such index. `i` is the index of the first element of `lines` in
the enclosing list. -/
lemma headingIdxGo_spec :
    ∀ (lines : List String) (i : Nat),
      (headingIdxGo i lines = 0 ∧
        ∀ j (hj : j < lines.length), 2 < i + j →
          pyStartsWith (pyStrip (lines.get ⟨j, hj⟩)) "##" = false) ∨
      (∃ k, ∃ hk : k < lines.length,
        headingIdxGo i lines = i + k ∧ 2 < i + k ∧
        pyStartsWith (pyStrip (lines.get ⟨k, hk⟩)) "##" = true ∧
        ∀ j (hj : j < lines.length), j < k → 2 < i + j →
          pyStartsWith (pyStrip (lines.get ⟨j, hj⟩)) "##" = false) := by
  intro lines
  induction lines with
  | nil =>
    intro i
    left
    exact ⟨rfl, fun j hj => absurd hj (by simp)⟩
  | cons l ls ih =>
    intro i
    by_cases hc : (pyStartsWith (pyStrip l) "##" && decide (i > 2)) = true
    · right
      have hb := (Bool.and_eq_true _ _).mp hc
      refine ⟨0, by simp, ?_, ?_, hb.1, ?_⟩
      · unfold headingIdxGo
        rw [if_pos hc]
        omega
      · have := of_decide_eq_true hb.2
        omega
      · intro j hj hj0 _
        exact absurd hj0 (Nat.not_lt_zero j)
    · have hstep : headingIdxGo i (l :: ls) = headingIdxGo (i + 1) ls := by
        simp only [headingIdxGo]
        rw [if_neg hc]
      have hhead : 2 < i → pyStartsWith (pyStrip l) "##" = false := by
        intro hi
        cases hx : pyStartsWith (pyStrip l) "##" with
        | false => rfl
        | true =>
          exact absurd (by simp [hx, decide_eq_true hi]) hc
      rcases ih (i + 1) with ⟨hz, hall⟩ | ⟨k, hk, heq, hgt, hht, hprev⟩
      · left
        refine ⟨by rw [hstep, hz], ?_⟩
        intro j hj hij
        cases j with
        | zero => exact hhead (by omega)
        | succ j' =>
          have hj' : j' < ls.length := by simpa using hj
          exact hall j' hj' (by omega)
      · right
        refine ⟨k + 1, by simpa using hk, ?_, by omega, hht, ?_⟩
        · rw [hstep, heq]
          omega
        · intro j hj hjk hij
          cases j with
          | zero => exact hhead (by omega)
          | succ j' =>
            have hj' : j' < ls.length := by simpa using hj
            exact hprev j' hj' (by omega) (by omega)

set_option maxRecDepth 100000 in
/-- Claim C8 counterexample: with the template
`"a\nb\nc\n### X\n## Y"`, whose first second-level (`##`) heading after
the third line is `## Y` at index 4, the section is inserted at index 3,
before the third-level heading `### X` — the code's check
`line.strip().startswith("##")` also matches deeper headings — so the
output differs from what the claim dictates. -/
theorem insertion_matches_deeper_headings :
    (enrichPrompt envUnresolved "5-tasks" ["lib"] "a\nb\nc\n### X\n## Y"
        []).1 =
      pyJoin "\n" (pyInsert 3
        (formatLibraryDocsSection [("lib", unresolvedNote "lib")])
        (pySplitLines "a\nb\nc\n### X\n## Y")) ∧
    (enrichPrompt envUnresolved "5-tasks" ["lib"] "a\nb\nc\n### X\n## Y"
        []).1 ≠
      pyJoin "\n" (pyInsert 4
        (formatLibraryDocsSection [("lib", unresolvedNote "lib")])
        (pySplitLines "a\nb\nc\n### X\n## Y")) :=
  ⟨by decide, by decide⟩

set_option maxRecDepth 100000 in
/-- Claim C8 as amended: with an explicit placeholder marker, the marker
is replaced by the section and the closing marker deleted (shown as the
exact double replacement, plus a concrete no-leftover instance with a
successfully fetched library); without a marker, the section is inserted
immediately before the first line past the third whose stripped form
starts with `##` — a heading of level two or deeper — and is appended at
the end when no such line exists. -/
theorem section_insertion_points (prompt sectionText : String) :
    (pyContainsStr "<context7_docs>" prompt = true →
      insertSection prompt sectionText =
        pyReplace (pyReplace prompt "<context7_docs>" sectionText)
          "</context7_docs>" "") ∧
    (pyContainsStr "<context7_docs>" prompt = false →
      headingIdxGo 0 (pySplitLines prompt) > 0 →
      insertSection prompt sectionText =
        pyJoin "\n" (pyInsert (headingIdxGo 0 (pySplitLines prompt))
          sectionText (pySplitLines prompt)) ∧
      2 < headingIdxGo 0 (pySplitLines prompt) ∧
      (∃ hk : headingIdxGo 0 (pySplitLines prompt) <
          (pySplitLines prompt).length,
        pyStartsWith (pyStrip ((pySplitLines prompt).get
          ⟨headingIdxGo 0 (pySplitLines prompt), hk⟩)) "##" = true) ∧
      (∀ j (hj : j < (pySplitLines prompt).length), 2 < j →
        j < headingIdxGo 0 (pySplitLines prompt) →
        pyStartsWith (pyStrip ((pySplitLines prompt).get ⟨j, hj⟩)) "##" =
          false)) ∧
    (pyContainsStr "<context7_docs>" prompt = false →
      headingIdxGo 0 (pySplitLines prompt) = 0 →
      insertSection prompt sectionText = prompt ++ "\n\n" ++ sectionText ∧
      (∀ j (hj : j < (pySplitLines prompt).length), 2 < j →
        pyStartsWith (pyStrip ((pySplitLines prompt).get ⟨j, hj⟩)) "##" =
          false)) ∧
    (pyContainsStr "PYTEST DOCS"
      (enrichPrompt envFetchOk "7-tests" ["pytest"]
        "Intro\n<context7_docs>\n</context7_docs>\nrest" []).1 = true ∧
    pyContainsStr "<context7_docs>"
      (enrichPrompt envFetchOk "7-tests" ["pytest"]
        "Intro\n<context7_docs>\n</context7_docs>\nrest" []).1 = false ∧
    pyContainsStr "</context7_docs>"
      (enrichPrompt envFetchOk "7-tests" ["pytest"]
        "Intro\n<context7_docs>\n</context7_docs>\nrest" []).1 = false) := by
  refine ⟨?_, ?_, ?_, by decide, by decide, by decide⟩
  · intro hmark
    unfold insertSection
    rw [hmark, if_pos rfl]
  · intro hmark hidx
    rcases headingIdxGo_spec (pySplitLines prompt) 0 with
      ⟨hz, _⟩ | ⟨k, hk, heq, hgt, hht, hprev⟩
    · rw [hz] at hidx
      exact absurd hidx (by omega)
    · have heq' : headingIdxGo 0 (pySplitLines prompt) = k := by
        rw [heq]
        omega
      refine ⟨?_, ?_, ?_, ?_⟩
      · unfold insertSection
        rw [hmark, if_neg Bool.false_ne_true, if_pos hidx]
      · rw [heq']
        omega
      · rw [heq']
        exact ⟨hk, hht⟩
      · intro j hj h2j hjk
        rw [heq'] at hjk
        exact hprev j hj hjk (by omega)
  · intro hmark hzero
    refine ⟨?_, ?_⟩
    · unfold insertSection
      rw [hmark, if_neg Bool.false_ne_true, if_neg (by rw [hzero]; omega)]
    · rcases headingIdxGo_spec (pySplitLines prompt) 0 with
        ⟨_, hall⟩ | ⟨k, hk, heq, hgt, _, _⟩
      · intro j hj h2j
        exact hall j hj (by omega)
      · rw [hzero] at heq
        exact absurd heq (by omega)

set_option maxRecDepth 100000 in
/-- Witness for the amended C8: the placeholder branch at a concrete
template. -/
theorem section_insertion_points_witness :
    insertSection "x\n<context7_docs>\n</context7_docs>" "SEC" =
      pyReplace (pyReplace "x\n<context7_docs>\n</context7_docs>"
        "<context7_docs>" "SEC") "</context7_docs>" "" :=
  (section_insertion_points "x\n<context7_docs>\n</context7_docs>"
    "SEC").1 (by decide)

end AiSdlc
